import Mathlib

set_option maxRecDepth 8000

/-!
Verification of the netbox-powerdns-sync reconciliation engine
(`netbox_powerdns_sync/jobs.py`) against its natural-language specification.

Modelling conventions:
* Python strings are Lean `String` (with `List Char` workhorses).
* Python `set` objects of DNS records are duplicate-free lists; `set.add`
  is `addRec`, set difference is `setDiff`, so membership facts transfer.
* The Django ORM, the PowerDNS HTTP API and the job queue are abstracted
  into explicit pure environments (`Env`, `Config`, `JobInfo`).
* Functions named after the source are translated from `jobs.py`.
  Functions whose defining file is absent from the source snapshot
  (`models.py`, `naming.py`, `utils.py`, `record.py`, `constants.py`)
  carry a doc comment starting with `Modelled from the spec:` and follow
  the specification text.
-/

namespace PdnsSync

/-- Python `str.lower` on one character (ASCII, which is all DNS needs). -/
def pyLower (c : Char) : Char :=
  if c.toNat ≤ 90 ∧ 65 ≤ c.toNat then Char.ofNat (c.toNat + 32) else c

/-- Python `str.lower` on a string. -/
def lowerStr (s : String) : String := ⟨s.data.map pyLower⟩

def isDigitC (c : Char) : Bool := decide (48 ≤ c.toNat ∧ c.toNat ≤ 57)

def isAlphaC (c : Char) : Bool :=
  decide ((97 ≤ c.toNat ∧ c.toNat ≤ 122) ∨ (65 ≤ c.toNat ∧ c.toNat ≤ 90))

def isAlnumC (c : Char) : Bool := isDigitC c || isAlphaC c

def isHexC (c : Char) : Bool :=
  isDigitC c || decide ((97 ≤ c.toNat ∧ c.toNat ≤ 102) ∨ (65 ≤ c.toNat ∧ c.toNat ≤ 70))

def digitVal (c : Char) : Nat := c.toNat - 48

def hexVal (c : Char) : Nat :=
  if isDigitC c then c.toNat - 48
  else if decide (97 ≤ c.toNat) then c.toNat - 87
  else c.toNat - 55

/-- Decimal value of a digit string; `none` when empty or not all digits. -/
def decVal (cs : List Char) : Option Nat :=
  if cs ≠ [] ∧ cs.all isDigitC = true then
    some (cs.foldl (fun a c => a * 10 + digitVal c) 0)
  else none

/-- Collaborator model: one octet of a dotted quad as accepted by
`netaddr.IPNetwork` for the full dotted-quad strings the code builds:
decimal digits, value at most 255. -/
def parseOctet (s : String) : Option Nat :=
  match decVal s.data with
  | some v => if v ≤ 255 then some v else none
  | none => none

/-- Python `str.rstrip(".")` on a character list. -/
def rstripDotsCL (cs : List Char) : List Char :=
  (cs.reverse.dropWhile (fun c => c == '.')).reverse

/-- Python `str.rstrip(".")`. -/
def rstripDotsS (s : String) : String := ⟨rstripDotsCL s.data⟩

/-- Python `str.split(".")` on a character list (empty segments kept). -/
def splitDotsCL : List Char → List (List Char)
  | [] => [[]]
  | c :: rest =>
    let r := splitDotsCL rest
    if c = '.' then [] :: r
    else
      match r with
      | [] => [[c]]
      | h :: t => (c :: h) :: t

/-- Python `str.split(".")`. -/
def splitDotsS (s : String) : List String := (splitDotsCL s.data).map (fun l => ⟨l⟩)

/-- Python `".".join(...)`. -/
def joinDots : List String → String
  | [] => ""
  | [s] => s
  | s :: rest => s ++ "." ++ joinDots rest

/-- Python `str.endswith`. -/
def endsWithS (s suf : String) : Bool := suf.data.isSuffixOf s.data

/-- Fuel-driven core of Python `str.replace(pat, "")`: removes every
non-overlapping occurrence of `pat`, scanning left to right.  The fuel is
only there to make the recursion structural; it never runs out when it
starts at the length of the scanned list. -/
def pyReplaceGo (pat : List Char) : Nat → List Char → List Char
  | _, [] => []
  | 0, s => s
  | fuel + 1, c :: cs =>
    if pat ≠ [] ∧ pat.isPrefixOf (c :: cs) = true then
      pyReplaceGo pat fuel ((c :: cs).drop pat.length)
    else
      c :: pyReplaceGo pat fuel cs

/-- Python `str.replace(pat, "")` (`jobs.py` uses `replace` with the zone
name to make a record name relative). -/
def pyReplace (pat s : List Char) : List Char := pyReplaceGo pat s.length s

/-- Python `str.replace(pat, "")` on `String`. -/
def pyReplaceS (s pat : String) : String := ⟨pyReplace pat.data s.data⟩

/-- Fuel-driven decimal digit rendering. -/
def natDigitsGo : Nat → Nat → List Char
  | _, 0 => []
  | n, fuel + 1 =>
    if n < 10 then [Char.ofNat (48 + n)]
    else natDigitsGo (n / 10) fuel ++ [Char.ofNat (48 + n % 10)]

/-- Decimal rendering of a natural number (Python `str`/f-string). -/
def natDigits (n : Nat) : List Char := natDigitsGo n (n + 1)

/-- Decimal rendering of a natural number as a `String`. -/
def natToStr (n : Nat) : String := ⟨natDigits n⟩

/-- Group a character list into chunks of four (the code's
`ipv6_nibbles[i : i + 4]` list comprehension). -/
def chunk4 : List Char → List (List Char)
  | [] => []
  | [a] => [[a]]
  | [a, b] => [[a, b]]
  | [a, b, c] => [[a, b, c]]
  | a :: b :: c :: d :: rest => [a, b, c, d] :: chunk4 rest

/- ------------------------------------------------------------------ -/
/- DNS record value objects and the record-set diff                    -/
/- ------------------------------------------------------------------ -/

/-- Modelled from the spec: the record types handled by the sync
(`constants.py` absent): `A`, `AAAA` for the two address families and
`PTR` for reverse records. -/
inductive DnsType
  | A
  | AAAA
  | PTR
deriving DecidableEq

/-- Address family of an inventory address. -/
inductive Fam
  | v4
  | v6
deriving DecidableEq

/-- Modelled from the spec: `FAMILY_TYPES` (`constants.py` absent): map
from address family to forward record type, A for v4 and AAAA for v6. -/
def familyType : Fam → DnsType
  | .v4 => .A
  | .v6 => .AAAA

/-- Modelled from the spec: the `DnsRecord` value object (`record.py`
absent): name (relative label), type, data, ttl, zone name; equality and
hashing are over the full tuple, which structure equality gives. -/
structure DnsRecord where
  name : String
  dns_type : DnsType
  data : String
  ttl : Nat
  zone_name : String
deriving DecidableEq

/-- Python `set.add`: duplicate-free insertion. -/
def addRec (l : List DnsRecord) (r : DnsRecord) : List DnsRecord :=
  if r ∈ l then l else l ++ [r]

/-- Python set difference `a - b` over `DnsRecord` identity. -/
def setDiff (a b : List DnsRecord) : List DnsRecord :=
  a.filter (fun r => !decide (r ∈ b))

/-- The full-sync diff (`run_full_sync` lines 317-318):
`to_create = netbox_records - pdns_records`,
`to_delete = pdns_records - netbox_records`; returned here as
`(to_create, to_delete)` for the desired set and the actual set. -/
def diffRecords (desired actual : List DnsRecord) : List DnsRecord × List DnsRecord :=
  (setDiff desired actual, setDiff actual desired)

/-- One apply step of the full sync loop: a delete or a create of a record. -/
inductive SyncOp
  | del (r : DnsRecord)
  | cre (r : DnsRecord)
deriving DecidableEq

def SyncOp.isDel : SyncOp → Bool
  | .del _ => true
  | .cre _ => false

def SyncOp.isCre : SyncOp → Bool
  | .del _ => false
  | .cre _ => true

/-- The order in which `run_full_sync` processes the diff (lines 322-325):
the whole `to_delete` loop runs before the `to_create` loop. -/
def processSeq (toDelete toCreate : List DnsRecord) : List SyncOp :=
  toDelete.map .del ++ toCreate.map .cre

/- ------------------------------------------------------------------ -/
/- Reverse-zone network derivation (get_addresses lines 373-423)       -/
/- ------------------------------------------------------------------ -/

/-- A derived candidate-selection network: either an IPv4 network given by
four octets and a prefix length, or an IPv6 network given by its 128-bit
value and a prefix length. -/
inductive IPNet
  | v4 (a b c d plen : Nat)
  | v6 (val plen : Nat)
deriving DecidableEq

/-- Validity of one colon-separated group built by the code: one to four
hexadecimal digits. -/
def chunkOk (cs : List Char) : Bool :=
  decide (1 ≤ cs.length) && decide (cs.length ≤ 4) && cs.all isHexC

/-- Value of one hexadecimal group. -/
def chunkVal (cs : List Char) : Nat := cs.foldl (fun a c => a * 16 + hexVal c) 0

/-- 128-bit value denoted by leading groups followed by `::` (remaining
groups zero). -/
def groupsVal (chunks : List (List Char)) : Nat :=
  (chunks.foldl (fun a g => a * 2 ^ 16 + chunkVal g) 0) * 2 ^ (16 * (8 - chunks.length))

/-- Collaborator model: `netaddr.IPNetwork` applied to the string
`g1:...:gk::/plen` that the code builds (`IPNetwork(f"{ipv6_address}::/{network_length}")`).
The trailing `::` requires at most seven explicit groups (eight groups
followed by `::` is rejected), every group must be one to four hex digits,
and the prefix length must be at most 128; otherwise `AddrFormatError`. -/
def netaddrColonColon (chunks : List (List Char)) (plen : Nat) : Option IPNet :=
  if chunks.length ≤ 7 ∧ chunks.all chunkOk = true ∧ plen ≤ 128 then
    some (.v6 (groupsVal chunks) plen)
  else none

/-- Modelled from the spec: §4.3 construction of "the resulting IPv6
network" from the regrouped 4-hex-digit chunks with
`prefix length = nibble_count x 4`; groups past the given chunks are zero,
a malformed nibble sequence yields no derivable network. -/
def specIpv6Construct (chunks : List (List Char)) (plen : Nat) : Option IPNet :=
  if chunks.length ≤ 8 ∧ chunks.all chunkOk = true ∧ plen ≤ 128 then
    some (.v6 (groupsVal chunks) plen)
  else none

/-- Modelled from the spec: §4.3 IPv6 derivation procedure for the labels
before the `ip6.arpa.` suffix: reverse their order, concatenate, regroup
into 4-hex-digit chunks, prefix length is nibble count times four. -/
def specIpv6Net (labels : List String) : Option IPNet :=
  let nibbles := labels.reverse
  let joined := (nibbles.map String.data).flatten
  specIpv6Construct (chunk4 joined) (nibbles.length * 4)

/-- Python `parts[-1]` (with an irrelevant default for the empty list,
which the length guards rule out). -/
def partsLast (parts : List String) : String := parts.getLastD ""

/-- Python `parts[-2]`. -/
def partsLast2 (parts : List String) : String := parts.dropLast.getLastD ""

/-- The reverse-zone network derivation of `get_addresses`
(`jobs.py` lines 373-423) on the dot-split label list of the zone name
(after `rstrip(".")`).  `Except.error` is an uncaught `AddrFormatError`
from `netaddr` (the IPv4 arm has no try/except); `Except.ok none` means no
derivable network. -/
def deriveFromParts (parts : List String) : Except Unit (Option IPNet) :=
  let condA := 3 ≤ parts.length ∧ partsLast2 parts = "in-addr" ∧ partsLast parts = "arpa"
  let condB := 3 < parts.length ∧ partsLast parts = "ip6"
  if condA ∨ condB then
    if condA then
      if parts.length = 5 then
        match parseOctet (parts.getD 2 ""), parseOctet (parts.getD 1 ""),
              parseOctet (parts.getD 0 "") with
        | some a, some b, some c => .ok (some (.v4 a b c 0 24))
        | _, _, _ => .error ()
      else if parts.length = 4 then
        match parseOctet (parts.getD 1 ""), parseOctet (parts.getD 0 "") with
        | some a, some b => .ok (some (.v4 a b 0 0 16))
        | _, _ => .error ()
      else if parts.length = 3 then
        match parseOctet (parts.getD 0 "") with
        | some a => .ok (some (.v4 a 0 0 0 8))
        | none => .error ()
      else .ok none
    else .ok none
  else if 3 < parts.length ∧ partsLast2 parts = "ip6" ∧ partsLast parts = "arpa" then
    let nibbles := parts.dropLast.dropLast.reverse
    let joined := (nibbles.map String.data).flatten
    .ok (netaddrColonColon (chunk4 joined) (nibbles.length * 4))
  else .ok none

/-- The same derivation starting from the canonical zone name, mirroring
`zone_domain = self.zone.name.rstrip(".")` and `parts = zone_domain.split(".")`. -/
def deriveFromName (zoneName : String) : Except Unit (Option IPNet) :=
  deriveFromParts (splitDotsS (rstripDotsS zoneName))

/- ------------------------------------------------------------------ -/
/- Inventory data model and name synthesis                             -/
/- ------------------------------------------------------------------ -/

/-- A device or virtual machine, as far as naming and matching need it. -/
structure HostInfo where
  name : String
  tags : List String
deriving DecidableEq

/-- The object an address is assigned to: a device interface, a virtual
machine interface, or an FHRP group. -/
inductive Assigned
  | iface (ifaceName : String) (host : HostInfo)
  | vmIface (ifaceName : String) (vm : HostInfo)
  | fhrp (groupName : String)
deriving DecidableEq

/-- An inventory IP address.  `o1.o2.o3.o4` are the IPv4 octets,
`addr6` the 128-bit IPv6 value (used by whichever family applies);
`isPrimary` states that the address is a primary address of its host
(the `self.ip != host.primary_ip4 and self.ip != host.primary_ip6` test);
`ttlOverride` is the address-specific TTL. -/
structure IPAddr where
  family : Fam
  o1 : Nat
  o2 : Nat
  o3 : Nat
  o4 : Nat
  addr6 : Nat
  dns_name : String
  assigned : Option Assigned
  isPrimary : Bool
  tags : List String
  ttlOverride : Option Nat
deriving DecidableEq

/-- A configured DNS zone (`models.py` absent; fields follow §3 of the
spec and the migration schema: canonical trailing-dot name, enabled flag,
default TTL, tag match criteria). -/
structure ZoneM where
  name : String
  enabled : Bool
  default_ttl : Nat
  matchIpTags : List String
  matchDeviceTags : List String
deriving DecidableEq

/-- Modelled from the spec: §3 `is_reverse` is derived from the zone name
suffix (`in-addr.arpa.` or `ip6.arpa.`). -/
def ZoneM.isReverse (z : ZoneM) : Bool :=
  endsWithS z.name "in-addr.arpa." || endsWithS z.name "ip6.arpa."

/-- The zone/server configuration plus the plugin settings the sync reads:
the configured custom/default domain and the default reverse target. -/
structure Config where
  zones : List ZoneM
  customDomain : Option ZoneM
  defaultRdns : String

/-- Modelled from the spec: `make_dns_label` (`utils.py` absent): §4.2
each label is lower-cased, restricted to alphanumerics and hyphens
(invalid characters dropped), at most 63 characters. -/
def makeDnsLabel (s : String) : String :=
  ⟨((s.data.map pyLower).filter (fun c => isAlnumC c || c == '-')).take 63⟩

/-- Sanitised host name, from `make_name_from_interface` line 94:
`".".join(map(make_dns_label, name.split(".")))`. -/
def sanitizeName (s : String) : String :=
  joinDots ((splitDotsS s).map makeDnsLabel)

/-- The host/interface label of `make_name_from_interface`
(`jobs.py` lines 90-97): the sanitised host name, prefixed with the
interface label when the address is not a primary address of the host. -/
def makeNameFromInterface (ifaceName hostName : String) (primary : Bool) : String :=
  if primary then sanitizeName hostName
  else makeDnsLabel ifaceName ++ "." ++ sanitizeName hostName

/-- The topology-derived label for an address (per §4.2, and
`make_name_from_interface` for interfaces): empty when no host name is
derivable. -/
def topoName (ip : IPAddr) : String :=
  match ip.assigned with
  | some (.iface i h) => makeNameFromInterface i h.name ip.isPrimary
  | some (.vmIface i h) => makeNameFromInterface i h.name ip.isPrimary
  | some (.fhrp n) => sanitizeName n
  | none => ""

/-- Modelled from the spec: `generate_fqdn` (`naming.py` absent): §4.2
builds the topology label and concatenates it with `zone.name`
(canonical trailing-dot form, per §4.1 and the FQDN glossary entry);
returns the empty string when there is no zone or no derivable name. -/
def generateFqdn (ip : IPAddr) (z : Option ZoneM) : String :=
  match z with
  | none => ""
  | some zone =>
    let lbl := topoName ip
    if lbl = "" then "" else lbl ++ "." ++ zone.name

/-- Modelled from the spec: `make_canonical` (`utils.py` absent):
normalise a name to canonical trailing-dot form. -/
def makeCanonical (s : String) : String :=
  if endsWithS s "." then s else s ++ "."

/-- Label-aligned suffix test: the zone name is a suffix of the candidate
and the match starts at a label boundary. -/
def labelAlignedSuffix (zoneName cand : String) : Bool :=
  zoneName.data.isSuffixOf cand.data &&
    (decide (zoneName.data.length = cand.data.length) ||
      decide (cand.data.getD (cand.data.length - zoneName.data.length - 1) '?' = '.'))

/-- Number of labels of a canonical name, counted by its dots. -/
def dotCount (s : String) : Nat := s.data.count '.'

/-- Modelled from the spec: `Zone.get_best_zone` (`models.py` absent):
§4.1 normalises the candidate to canonical trailing-dot form, keeps the
enabled zones whose name is a label-aligned case-insensitive suffix of the
candidate, and returns the one with the greatest label count (first such
zone in configuration order; the tie-break is unspecified). -/
def getBestZone (cfg : Config) (cand : String) : Option ZoneM :=
  let n := lowerStr (makeCanonical cand)
  let cands := cfg.zones.filter (fun z => z.enabled && labelAlignedSuffix (lowerStr z.name) n)
  cands.foldl
    (fun best z =>
      match best with
      | none => some z
      | some b => if dotCount b.name < dotCount z.name then some z else some b)
    none

def listIntersects (a b : List String) : Bool := a.any (fun x => b.contains x)

/-- Modelled from the spec: `Zone.match_ip(ip).first()` (`models.py`
absent): §4.1(c) the first zone whose match criteria intersect the
address's tags (or its host's tags). -/
def matchIpFirst (cfg : Config) (ip : IPAddr) : Option ZoneM :=
  cfg.zones.find? (fun z =>
    listIntersects z.matchIpTags ip.tags ||
      (match ip.assigned with
       | some (.iface _ h) => listIntersects z.matchDeviceTags h.tags
       | some (.vmIface _ h) => listIntersects z.matchDeviceTags h.tags
       | _ => false))

/-- Modelled from the spec: `get_custom_domain` (`utils.py` absent):
§4.1(d) the configured default/custom domain fallback. -/
def getCustomDomain (cfg : Config) (_ip : IPAddr) : Option ZoneM :=
  cfg.customDomain

/-- String form of the custom domain as interpolated into the PTR data
f-string (`str` of the zone object is its name; empty when none). -/
def customDomainStr (cfg : Config) : String :=
  match cfg.customDomain with
  | some z => z.name
  | none => ""

/-- `determine_forward_zone` (`jobs.py` lines 108-128): name from the
explicit DNS name, else the assigned device / virtual machine / FHRP group
name; resolve it via `get_best_zone`; fall back to tag matching, then to
the custom domain. -/
def determineForwardZone (cfg : Config) (ip : IPAddr) : Option ZoneM :=
  let nameO : Option String :=
    if ip.dns_name ≠ "" then some ip.dns_name
    else
      match ip.assigned with
      | some (.iface _ h) => some h.name
      | some (.vmIface _ h) => some h.name
      | some (.fhrp n) => some n
      | none => none
  let fz0 : Option ZoneM :=
    match nameO with
    | some n => if n ≠ "" then getBestZone cfg n else none
    | none => none
  let fz1 : Option ZoneM :=
    match fz0 with
    | some z => some z
    | none => matchIpFirst cfg ip
  match fz1 with
  | some z => some z
  | none => getCustomDomain cfg ip

/-- `make_fqdn` (`jobs.py` lines 99-106): resolve the forward zone, and
generate the FQDN only when one was found. -/
def makeFqdn (cfg : Config) (ip : IPAddr) : Option ZoneM × String :=
  let fz := determineForwardZone cfg ip
  (fz, match fz with
       | none => ""
       | some _ => generateFqdn ip fz)

def hexDigit (n : Nat) : Char :=
  if n < 10 then Char.ofNat (48 + n) else Char.ofNat (87 + n)

/-- Collaborator model: `make_reverse_domain` (`jobs.py` lines 130-133):
`netaddr` reverse DNS name of the address, made canonical.  IPv4 gives
`o4.o3.o2.o1.in-addr.arpa.`, IPv6 the 32 reversed nibble labels under
`ip6.arpa.`. -/
def makeReverseDomain (ip : IPAddr) : String :=
  match ip.family with
  | .v4 =>
    makeCanonical (natToStr ip.o4 ++ "." ++ natToStr ip.o3 ++ "." ++ natToStr ip.o2 ++
      "." ++ natToStr ip.o1 ++ ".in-addr.arpa.")
  | .v6 =>
    makeCanonical
      (joinDots (((List.range 32).map (fun i => (⟨[hexDigit ((ip.addr6 >>> (4 * i)) % 16)]⟩ : String)))) ++
        ".ip6.arpa.")

/-- Collaborator model: `str(self.ip.address.ip)` — the bare address
literal (dotted quad for IPv4; full uncompressed groups for IPv6, whose
zero-compression by `netaddr` no theorem below depends on). -/
def ipLiteral (ip : IPAddr) : String :=
  match ip.family with
  | .v4 =>
    natToStr ip.o1 ++ "." ++ natToStr ip.o2 ++ "." ++ natToStr ip.o3 ++ "." ++ natToStr ip.o4
  | .v6 =>
    String.intercalate ":"
      (((List.range 8).map (fun i => natToStr ((ip.addr6 >>> (16 * (7 - i))) % 2 ^ 16))))

/-- Modelled from the spec: `get_ip_ttl` (`utils.py` absent): the
address-specific TTL override. -/
def getIpTtl (ip : IPAddr) : Option Nat := ip.ttlOverride

/-- Python `get_ip_ttl(ip) or default`: the override unless it is falsy
(`None` or `0`). -/
def pyOrTtl (o : Option Nat) (d : Nat) : Nat :=
  match o with
  | some t => if t = 0 then d else t
  | none => d

/-- Modelled from the spec: `get_default_rdns` (`utils.py` absent): the
configured default reverse target string. -/
def getDefaultRdns (cfg : Config) : String := cfg.defaultRdns

/-- Modelled from the spec: `set_dns_name` (`utils.py` absent): §4.5
writes the PTR target back onto the address's stored DNS name field. -/
def setDnsName (ip : IPAddr) (d : String) : IPAddr :=
  ⟨ip.family, ip.o1, ip.o2, ip.o3, ip.o4, ip.addr6, d, ip.assigned, ip.isPrimary,
    ip.tags, ip.ttlOverride⟩

/- ------------------------------------------------------------------ -/
/- DNS apply engine and orchestration                                  -/
/- ------------------------------------------------------------------ -/

/-- The failures the embedded tasks can raise: the two Python attribute
slips of the single-address path, and the two configuration exceptions
of `exceptions.py`. -/
inductive PyErr
  | attributeError
  | nameError
  | noServers
  | serverZoneMissing
deriving DecidableEq

inductive ActKind
  | create
  | delete
deriving DecidableEq

/-- An audit row appended by `add_to_output` for one record on one server. -/
structure ApplyAction where
  kind : ActKind
  server : String
  zone : String
  record : DnsRecord
deriving DecidableEq

/-- The PowerDNS side: the enabled API servers of a zone
(`get_pdns_servers_for_zone`) and, per server and zone name, the zone
with its recognised records, or `none` when the server's API does not
return the zone. -/
structure Env where
  serversFor : String → List String
  zoneOn : String → String → Option (List DnsRecord)

/-- The per-server loop shared by `create_record` and `delete_record`
(`jobs.py` lines 143-157 and 165-179): fetch the zone from each server,
raising `ServerZoneMissing` when absent, otherwise record the action and
apply it.  Returns the recorded actions and the first error, if any. -/
def applyLoop (env : Env) (k : ActKind) (r : DnsRecord) :
    List String → List ApplyAction × Option PyErr
  | [] => ([], none)
  | s :: ss =>
    match env.zoneOn s r.zone_name with
    | none => ([], some .serverZoneMissing)
    | some _ =>
      let rest := applyLoop env k r ss
      (⟨k, s, r.zone_name, r⟩ :: rest.1, rest.2)

/-- `create_record` (`jobs.py` lines 135-157): `NoServers` when no enabled
server serves the record's zone, else the per-server create loop. -/
def createRecord (env : Env) (r : DnsRecord) : List ApplyAction × Option PyErr :=
  if env.serversFor r.zone_name = [] then ([], some .noServers)
  else applyLoop env .create r (env.serversFor r.zone_name)

/-- `delete_record` (`jobs.py` lines 159-179): same shape as
`create_record` with the delete action. -/
def deleteRecord (env : Env) (r : DnsRecord) : List ApplyAction × Option PyErr :=
  if env.serversFor r.zone_name = [] then ([], some .noServers)
  else applyLoop env .delete r (env.serversFor r.zone_name)

/-- The accumulation loop of `load_pdns_records` (`jobs.py` lines
538-553): per server, fetch the zone (raising `ServerZoneMissing` when
absent) and merge its records into the set.  The checked-type filter of
the source always passes for the modelled A/AAAA/PTR types. -/
def collectPdns (env : Env) (zoneName : String) (acc : List DnsRecord) :
    List String → Except PyErr (List DnsRecord)
  | [] => .ok acc
  | s :: ss =>
    match env.zoneOn s zoneName with
    | none => .error .serverZoneMissing
    | some recs => collectPdns env zoneName (recs.foldl addRec acc) ss

/-- `load_pdns_records` (`jobs.py` lines 532-554). -/
def loadPdnsRecords (env : Env) (zone : ZoneM) : Except PyErr (List DnsRecord) :=
  if env.serversFor zone.name = [] then .error .noServers
  else collectPdns env zone.name [] (env.serversFor zone.name)

/-- The per-address body of the `load_netbox_records` loop (`jobs.py`
lines 458-528): add the forward record when the forward zone is the zone
being synced; when that zone is reverse, add the PTR record (with the
default reverse target substituted for an empty FQDN) and write the PTR
target back onto the address. -/
def loadNetboxOne (cfg : Config) (zone : ZoneM) (ip : IPAddr) (acc : List DnsRecord) :
    List DnsRecord × IPAddr :=
  let fzF := makeFqdn cfg ip
  let fz := fzF.1
  let fqdn := fzF.2
  let acc1 :=
    match fz with
    | some z =>
      if z = zone then
        addRec acc
          ⟨rstripDotsS (pyReplaceS fqdn z.name), familyType ip.family, ipLiteral ip,
            pyOrTtl (getIpTtl ip) z.default_ttl, z.name⟩
      else acc
    | none => acc
  if zone.isReverse then
    let rf := makeReverseDomain ip
    match getBestZone cfg rf with
    | none => (acc1, ip)
    | some rz =>
      if rz = zone then
        let name := rstripDotsS (pyReplaceS rf rz.name)
        let f0 := generateFqdn ip (some rz)
        let f1 := if f0 = "" then getDefaultRdns cfg else f0
        let data := f1 ++ customDomainStr cfg ++ "."
        (addRec acc1 ⟨name, .PTR, data, pyOrTtl (getIpTtl ip) rz.default_ttl, rz.name⟩,
          setDnsName ip data)
      else (acc1, ip)
  else (acc1, ip)

/-- `load_netbox_records` (`jobs.py` lines 452-530): fold the per-address
body over the candidate addresses, returning the desired record set and
the addresses with their written-back DNS names. -/
def loadNetboxRecords (cfg : Config) (zone : ZoneM) :
    List IPAddr → List DnsRecord → List DnsRecord × List IPAddr
  | [], acc => (acc, [])
  | ip :: rest, acc =>
    let one := loadNetboxOne cfg zone ip acc
    let r := loadNetboxRecords cfg zone rest one.1
    (r.1, one.2 :: r.2)

/-- The scheduling data of the triggering job: the prior scheduled time
and the optional recurrence interval. -/
structure JobInfo where
  scheduled : Nat
  interval : Option Nat
deriving DecidableEq

inductive JobStatus
  | completed
  | errored
deriving DecidableEq

/-- Observable outcome of one full-zone sync run: terminal status, audit
actions, the scheduled time of the re-enqueued job (if any), and the
addresses after write-backs. -/
structure RunResult where
  status : JobStatus
  actions : List ApplyAction
  next : Option Nat
  ips : List IPAddr
deriving DecidableEq

/-- One of the two apply loops of `run_full_sync` (lines 322-325): apply
the given kind to each record in turn, stopping at the first raised
error. -/
def applySeq (env : Env) (k : ActKind) : List DnsRecord → List ApplyAction × Option PyErr
  | [] => ([], none)
  | r :: rs =>
    let one := match k with
      | .delete => deleteRecord env r
      | .create => createRecord env r
    match one.2 with
    | some e => (one.1, some e)
    | none =>
      let rest := applySeq env k rs
      (one.1 ++ rest.1, rest.2)

/-- `run_full_sync` (`jobs.py` lines 297-350).  A disabled zone terminates
the job and returns before the rescheduling block; otherwise the run loads
both record sets, applies deletes then creates, marks the job `Errored`
on any `NoServers`/`ServerZoneMissing`/other exception without re-raising,
and then (only on this path) re-enqueues itself at
`job.scheduled + interval` when an interval is set. -/
def runFullSync (cfg : Config) (zone : ZoneM) (ips : List IPAddr) (env : Env)
    (job : JobInfo) : RunResult :=
  if zone.enabled = false then ⟨.completed, [], none, ips⟩
  else
    let nb := loadNetboxRecords cfg zone ips []
    let core : JobStatus × List ApplyAction :=
      match loadPdnsRecords env zone with
      | .error _ => (.errored, [])
      | .ok pdns =>
        let toDelete := setDiff pdns nb.1
        let toCreate := setDiff nb.1 pdns
        let dels := applySeq env .delete toDelete
        match dels.2 with
        | some _ => (.errored, dels.1)
        | none =>
          let crs := applySeq env .create toCreate
          match crs.2 with
          | some _ => (.errored, dels.1 ++ crs.1)
          | none => (.completed, dels.1 ++ crs.1)
    ⟨core.1, core.2,
      (match job.interval with
       | some i => some (job.scheduled + i)
       | none => none),
      nb.2⟩

/-- Python `x or reverse_zone.default_ttl` when `reverse_zone` may be
`None` (`create_forward` line 246): the attribute access only happens when
the override is falsy, and raises `AttributeError` when the reverse zone
is missing. -/
def ttlOrReverse (o : Option Nat) (rz : Option ZoneM) : Except PyErr Nat :=
  match o with
  | some t =>
    if t = 0 then
      match rz with
      | some r => .ok r.default_ttl
      | none => .error .attributeError
    else .ok t
  | none =>
    match rz with
    | some r => .ok r.default_ttl
    | none => .error .attributeError

/-- `create_forward` (`jobs.py` lines 214-251).  The missing-zone and
missing-FQDN branches only log (the loop does not return), so the record
is still built: a `None` forward zone raises `AttributeError` at
`self.fqdn.replace(self.forward_zone.name, ...)`, an empty FQDN yields a
record whose name is empty, and the TTL falls back to the *reverse*
zone's `default_ttl` (raising `AttributeError` when that zone is `None`
and the override is falsy). -/
def createForward (cfg : Config) (env : Env) (ip : IPAddr) :
    Except PyErr (DnsRecord × List ApplyAction) :=
  let fzF := makeFqdn cfg ip
  let fqdn := fzF.2
  let rz := getBestZone cfg (makeReverseDomain ip)
  match fzF.1 with
  | none => .error .attributeError
  | some z =>
    match ttlOrReverse (getIpTtl ip) rz with
    | .error e => .error e
    | .ok ttl =>
      let r : DnsRecord :=
        ⟨rstripDotsS (pyReplaceS fqdn z.name), familyType ip.family, ipLiteral ip, ttl, z.name⟩
      let cr := createRecord env r
      match cr.2 with
      | some e => .error e
      | none => .ok (r, cr.1)

/-- `create_reverse` (`jobs.py` lines 253-289).  The two skip logs for a
missing forward zone and for an empty FQDN interpolate the undefined name
`ip` (lines 257 and 263) and therefore raise `NameError`; only the
missing-reverse-zone branch returns without a record.  The PTR data is
`generate_fqdn(self.ip, self.reverse_zone)` plus the custom domain and a
trailing dot, with no default-reverse-target fallback, and on success the
data is written back onto the address. -/
def createReverse (cfg : Config) (env : Env) (ip : IPAddr) :
    Except PyErr (Option (DnsRecord × List ApplyAction × IPAddr)) :=
  let fzF := makeFqdn cfg ip
  let fqdn := fzF.2
  if fzF.1.isNone then .error .nameError
  else if fqdn = "" then .error .nameError
  else
    let rf := makeReverseDomain ip
    match getBestZone cfg rf with
    | none => .ok none
    | some rz =>
      let name := rstripDotsS (pyReplaceS rf rz.name)
      let f0 := generateFqdn ip (some rz)
      let data := f0 ++ customDomainStr cfg ++ "."
      let r : DnsRecord := ⟨name, .PTR, data, pyOrTtl (getIpTtl ip) rz.default_ttl, rz.name⟩
      let cr := createRecord env r
      match cr.2 with
      | some e => .error e
      | none => .ok (some (r, cr.1, setDnsName ip data))

/- ------------------------------------------------------------------ -/
/- Concrete configurations used by the claim theorems                  -/
/- ------------------------------------------------------------------ -/

/-- Forward zone `example.com.` with default TTL 3600. -/
def zoneExample : ZoneM := ⟨"example.com.", true, 3600, [], []⟩

/-- Reverse zone `0.72.10.in-addr.arpa.` with default TTL 3600. -/
def zoneRev : ZoneM := ⟨"0.72.10.in-addr.arpa.", true, 3600, [], []⟩

/-- Reverse zone `0.72.10.in-addr.arpa.` with default TTL 500. -/
def zoneRev500 : ZoneM := ⟨"0.72.10.in-addr.arpa.", true, 500, [], []⟩

/-- Forward zone `example.com.` matching addresses tagged `t1`. -/
def zoneTag : ZoneM := ⟨"example.com.", true, 3600, ["t1"], []⟩

/-- A disabled zone. -/
def zoneDisabled : ZoneM := ⟨"example.com.", false, 3600, [], []⟩

/-- An environment with one server that knows every zone (and holds no
records). -/
def envOne : Env := ⟨fun _ => ["srv1"], fun _ _ => some []⟩

/-- An environment with no enabled servers at all. -/
def envNone : Env := ⟨fun _ => [], fun _ _ => none⟩

/-- Two servers of which the second does not recognise any zone. -/
def envHalf : Env := ⟨fun _ => ["s1", "s2"], fun s _ => if s = "s1" then some [] else none⟩

def cfgPlain : Config := ⟨[zoneExample], none, "unknown"⟩

def cfgTag : Config := ⟨[zoneTag], none, "unknown"⟩

def cfgBoth : Config := ⟨[zoneExample, zoneRev], none, ""⟩

def cfgRev500 : Config := ⟨[zoneExample, zoneRev500], none, ""⟩

def cfgRevOnly : Config := ⟨[zoneRev], none, "unknown.example.com"⟩

/-- Address 10.72.0.9 whose explicit DNS name matches no configured zone
and that matches no tag either. -/
def ipNoZone : IPAddr :=
  ⟨.v4, 10, 72, 0, 9, 0, "host9.nowhere.test", none, true, [], none⟩

/-- Address 10.72.0.7 with no assigned object (so no derivable FQDN) whose
forward zone resolves by its tag; TTL override 300. -/
def ipTagOnly : IPAddr :=
  ⟨.v4, 10, 72, 0, 7, 0, "", none, true, ["t1"], some 300⟩

/-- Address 10.72.0.5 on interface eth0 of device host1, primary, explicit
DNS name `host1.example.com`. -/
def ipHost : IPAddr :=
  ⟨.v4, 10, 72, 0, 5, 0, "host1.example.com", some (.iface "eth0" ⟨"host1", []⟩), true, [], none⟩

/-- Address 10.72.0.6 with no assigned object and no matching anything on
the forward side, candidate of the reverse zone only. -/
def ipAnon : IPAddr :=
  ⟨.v4, 10, 72, 0, 6, 0, "", none, true, [], none⟩

/-- Address 10.72.0.5 whose explicit DNS name lies under the reverse zone
itself (exactly what an earlier PTR write-back produces). -/
def ipRevNamed : IPAddr :=
  ⟨.v4, 10, 72, 0, 5, 0, "host1.0.72.10.in-addr.arpa.", some (.iface "eth0" ⟨"host1", []⟩),
    true, [], none⟩

/-- Configuration for the idempotence analysis: a forward and a reverse
zone, no custom domain. -/
def cfgIdem : Config := ⟨[zoneExample, zoneRev], none, "unknown"⟩

/-- First full-sync pass of the idempotence scenario. -/
def idemRun1 : List DnsRecord × List IPAddr := loadNetboxRecords cfgIdem zoneRev [ipRevNamed] []

/-- Second full-sync pass, on the addresses as the first pass left them. -/
def idemRun2 : List DnsRecord × List IPAddr := loadNetboxRecords cfgIdem zoneRev idemRun1.2 []

/-- A record with TTL 300 and its TTL-600 variant. -/
def recTtl300 : DnsRecord := ⟨"host1", .A, "10.72.0.5", 300, "example.com."⟩

def recTtl600 : DnsRecord := ⟨"host1", .A, "10.72.0.5", 600, "example.com."⟩

/- ------------------------------------------------------------------ -/
/- Helper lemmas                                                       -/
/- ------------------------------------------------------------------ -/

instance instDecEqExcept {e a : Type} [DecidableEq e] [DecidableEq a] :
    DecidableEq (Except e a) := fun x y =>
  match x, y with
  | .ok v, .ok w => if h : v = w then .isTrue (by rw [h]) else .isFalse (by simp [h])
  | .error v, .error w => if h : v = w then .isTrue (by rw [h]) else .isFalse (by simp [h])
  | .ok _, .error _ => .isFalse (by simp)
  | .error _, .ok _ => .isFalse (by simp)

theorem partsLast_app (xs : List String) (a b : String) : partsLast (xs ++ [a, b]) = b := by
  have : xs ++ [a, b] = (xs ++ [a]) ++ [b] := by simp
  rw [partsLast, this, List.getLastD_concat]

theorem partsLast2_app (xs : List String) (a b : String) : partsLast2 (xs ++ [a, b]) = a := by
  have : xs ++ [a, b] = (xs ++ [a]) ++ [b] := by simp
  rw [partsLast2, this, List.dropLast_concat, List.getLastD_concat]

theorem dropLast2_app (xs : List String) (a b : String) :
    (xs ++ [a, b]).dropLast.dropLast = xs := by
  have : xs ++ [a, b] = (xs ++ [a]) ++ [b] := by simp
  rw [this, List.dropLast_concat, List.dropLast_concat]

/- ------------------------------------------------------------------ -/
/- Claim theorems                                                      -/
/- ------------------------------------------------------------------ -/

/-- C1: the full-zone diff is the pair of set differences over full-tuple
`DnsRecord` identity — membership in `to_create` is exactly
"desired and not actual", membership in `to_delete` is exactly "actual and
not desired", record equality is componentwise on the whole tuple, a
TTL-only change produces exactly one delete (old TTL) and one create (new
TTL), and every delete is processed before every create. -/
theorem c1_diff_is_set_difference :
    (∀ desired actual r, r ∈ (diffRecords desired actual).1 ↔ r ∈ desired ∧ r ∉ actual)
    ∧ (∀ desired actual r, r ∈ (diffRecords desired actual).2 ↔ r ∈ actual ∧ r ∉ desired)
    ∧ (∀ r₁ r₂ : DnsRecord, r₁ = r₂ ↔
        r₁.name = r₂.name ∧ r₁.dns_type = r₂.dns_type ∧ r₁.data = r₂.data ∧
          r₁.ttl = r₂.ttl ∧ r₁.zone_name = r₂.zone_name)
    ∧ diffRecords [recTtl600] [recTtl300] = ([recTtl600], [recTtl300])
    ∧ (∀ toDelete toCreate i j (hi : i < (processSeq toDelete toCreate).length)
        (hj : j < (processSeq toDelete toCreate).length),
        ((processSeq toDelete toCreate).get ⟨i, hi⟩).isDel = true →
        ((processSeq toDelete toCreate).get ⟨j, hj⟩).isCre = true → i < j) := by
  refine ⟨?_, ?_, ?_, ?_, ?_⟩
  · intro d a r
    simp [diffRecords, setDiff, List.mem_filter]
  · intro d a r
    simp [diffRecords, setDiff, List.mem_filter]
  · intro r₁ r₂
    cases r₁
    cases r₂
    simp
  · decide
  · intro d c i j hi hj hdel hcre
    have hlen : (processSeq d c).length = d.length + c.length := by
      simp [processSeq]
    have hi' : i < d.length := by
      by_contra hge
      push_neg at hge
      have hci : i - d.length < (c.map SyncOp.cre).length := by
        simp only [List.length_map]
        omega
      have hval : (processSeq d c).get ⟨i, hi⟩ = (c.map SyncOp.cre).get ⟨i - d.length, hci⟩ := by
        simp only [processSeq, List.get_eq_getElem]
        rw [List.getElem_append_right]
        · simp
        · simpa using hge
      rw [hval] at hdel
      simp only [List.get_eq_getElem, List.getElem_map] at hdel
      simp [SyncOp.isDel] at hdel
    have hj' : d.length ≤ j := by
      by_contra hlt
      push_neg at hlt
      have hdj : j < (d.map SyncOp.del).length := by
        simp only [List.length_map]
        omega
      have hval : (processSeq d c).get ⟨j, hj⟩ = (d.map SyncOp.del).get ⟨j, hdj⟩ := by
        simp only [processSeq, List.get_eq_getElem]
        rw [List.getElem_append_left]
      rw [hval] at hcre
      simp only [List.get_eq_getElem, List.getElem_map] at hcre
      simp [SyncOp.isCre] at hcre
    omega

/-- C1 witness: in the TTL-change scenario the delete of the old record
sits at index 0 and the create of the new record at index 1, and the
created record is exactly the desired-minus-actual element. -/
theorem c1_diff_is_set_difference_witness :
    (0 : Nat) < 1 ∧ recTtl600 ∈ (diffRecords [recTtl600] [recTtl300]).1 := by
  constructor
  · exact c1_diff_is_set_difference.2.2.2.2 [recTtl300] [recTtl600] 0 1
      (by decide) (by decide) (by decide) (by decide)
  · exact (c1_diff_is_set_difference.1 [recTtl600] [recTtl300] recTtl600).mpr
      ⟨by decide, by decide⟩

/-- C2: IPv4 reverse-zone derivation by label count — three octet labels
before `in-addr.arpa.` give a /24 (`0.72.10` gives `10.72.0.0/24`), two
give a /16, one gives a /8, and any other number of labels yields no
derivable network and raises nothing. -/
theorem c2_ipv4_reverse_derivation :
    deriveFromName "0.72.10.in-addr.arpa." = .ok (some (.v4 10 72 0 0 24))
    ∧ deriveFromName "72.10.in-addr.arpa." = .ok (some (.v4 10 72 0 0 16))
    ∧ deriveFromName "10.in-addr.arpa." = .ok (some (.v4 10 0 0 0 8))
    ∧ (∀ octs : List String, octs.length = 0 ∨ 4 ≤ octs.length →
        deriveFromParts (octs ++ ["in-addr", "arpa"]) = .ok none) := by
  refine ⟨by decide, by decide, by decide, ?_⟩
  intro octs h
  rcases h with h0 | h4
  · rw [List.length_eq_zero] at h0
    subst h0
    decide
  · have hA : 3 ≤ (octs ++ ["in-addr", "arpa"]).length ∧
        partsLast2 (octs ++ ["in-addr", "arpa"]) = "in-addr" ∧
        partsLast (octs ++ ["in-addr", "arpa"]) = "arpa" := by
      refine ⟨by simp; omega, partsLast2_app .., partsLast_app ..⟩
    have hlen : (octs ++ ["in-addr", "arpa"]).length = octs.length + 2 := by simp
    rw [deriveFromParts, if_pos (Or.inl hA), if_pos hA, if_neg, if_neg, if_neg]
    · omega
    · omega
    · omega

/-- C2 witness: a reverse name with four octet labels (six labels in all)
yields no derivable network. -/
theorem c2_ipv4_reverse_derivation_witness :
    deriveFromParts (["1", "2", "3", "4"] ++ ["in-addr", "arpa"]) = .ok none :=
  c2_ipv4_reverse_derivation.2.2.2 ["1", "2", "3", "4"] (Or.inr (by decide))

theorem chunk4_length : ∀ l : List Char, (chunk4 l).length = (l.length + 3) / 4
  | [] => by simp [chunk4]
  | [_] => by simp [chunk4]
  | [_, _] => by simp [chunk4]
  | [_, _, _] => by simp [chunk4]
  | _ :: _ :: _ :: _ :: rest => by
    have ih := chunk4_length rest
    simp only [chunk4, List.length_cons, ih]
    omega

theorem flatten_singles_length :
    ∀ ls : List String, (∀ s ∈ ls, s.length = 1) →
      ((ls.map String.data).flatten).length = ls.length
  | [], _ => rfl
  | s :: rest, h => by
    have hs : s.data.length = 1 := h s (List.mem_cons_self s rest)
    have ih := flatten_singles_length rest (fun x hx => h x (List.mem_cons_of_mem s hx))
    simp only [List.map_cons, List.flatten_cons, List.length_append, List.length_cons, hs, ih]
    omega

/-- C4 counterexample: on the reverse zone name `2.ip6.arpa.` (one nibble
label before the suffix) the code derives no network at all, while the
claimed procedure (reverse the labels, concatenate, regroup, prefix length
is nibble count times four) constructs `2::/4`. -/
theorem c4_ipv6_derivation_counterexample :
    deriveFromName "2.ip6.arpa." = .ok none
    ∧ specIpv6Net ["2"] = some (.v6 (2 * 2 ^ 112) 4)
    ∧ (some (IPNet.v6 (2 * 2 ^ 112) 4) : Option IPNet) ≠ none := by
  refine ⟨by rfl, by rfl, by decide⟩

/-- C4 amended: for a reverse zone name ending in `ip6.arpa.` whose labels
before the suffix are single characters, the derived network follows the
spec procedure exactly when there are at least 2 and at most 28 such
labels (the code requires more than one label, and the trailing `::` it
appends makes 8 or more regrouped chunks unparseable); outside those
bounds, and on malformed nibbles, it derives no network.  The round trip
for `2001:db8::/32` (name `8.b.d.0.1.0.0.2.ip6.arpa.`) holds. -/
theorem c4_ipv6_derivation_amended :
    (∀ labels : List String, (∀ s ∈ labels, s.length = 1) →
      deriveFromParts (labels ++ ["ip6", "arpa"]) =
        .ok (if 2 ≤ labels.length ∧ labels.length ≤ 28 then specIpv6Net labels else none))
    ∧ deriveFromName "8.b.d.0.1.0.0.2.ip6.arpa." = .ok (some (.v6 (0x20010db8 * 2 ^ 96) 32)) := by
  constructor
  · intro labels h
    have hlast : partsLast (labels ++ ["ip6", "arpa"]) = "arpa" := partsLast_app ..
    have hlast2 : partsLast2 (labels ++ ["ip6", "arpa"]) = "ip6" := partsLast2_app ..
    have hdrop : (labels ++ ["ip6", "arpa"]).dropLast.dropLast = labels := dropLast2_app ..
    have hlen : (labels ++ ["ip6", "arpa"]).length = labels.length + 2 := by simp
    have hnotA : ¬(3 ≤ (labels ++ ["ip6", "arpa"]).length ∧
        partsLast2 (labels ++ ["ip6", "arpa"]) = "in-addr" ∧
        partsLast (labels ++ ["ip6", "arpa"]) = "arpa") := by
      rw [hlast2]
      rintro ⟨-, hbad, -⟩
      exact absurd hbad (by decide)
    have hnotB : ¬(3 < (labels ++ ["ip6", "arpa"]).length ∧
        partsLast (labels ++ ["ip6", "arpa"]) = "ip6") := by
      rw [hlast]
      rintro ⟨-, hbad⟩
      exact absurd hbad (by decide)
    rw [deriveFromParts, if_neg (by rintro (hA | hB); exacts [hnotA hA, hnotB hB])]
    by_cases h2 : 2 ≤ labels.length
    · rw [if_pos ⟨by omega, hlast2, hlast⟩, hdrop]
      have hjlen : ((labels.reverse.map String.data).flatten).length = labels.length := by
        rw [flatten_singles_length labels.reverse
          (fun x hx => h x (List.mem_reverse.mp hx)), List.length_reverse]
      have hclen : (chunk4 ((labels.reverse.map String.data).flatten)).length =
          (labels.length + 3) / 4 := by
        rw [chunk4_length, hjlen]
      by_cases h28 : labels.length ≤ 28
      · rw [if_pos ⟨h2, h28⟩]
        simp only [specIpv6Net, netaddrColonColon, specIpv6Construct]
        refine congrArg Except.ok (if_congr ?_ rfl rfl)
        constructor
        · rintro ⟨-, hb, hc⟩
          exact ⟨by rw [hclen]; omega, hb, hc⟩
        · rintro ⟨-, hb, hc⟩
          refine ⟨by rw [hclen]; omega, hb, hc⟩
      · rw [if_neg (by omega)]
        simp only [netaddrColonColon]
        rw [if_neg]
        rintro ⟨hbad, -⟩
        rw [hclen] at hbad
        omega
    · rw [if_neg (by omega), if_neg (by omega)]
  · decide

/-- C4 witness: two single-nibble labels fall inside the amended bounds
and the code derives the spec network for them. -/
theorem c4_ipv6_derivation_amended_witness :
    deriveFromParts (["2", "a"] ++ ["ip6", "arpa"]) =
      .ok (if 2 ≤ (["2", "a"] : List String).length ∧ (["2", "a"] : List String).length ≤ 28
        then specIpv6Net ["2", "a"] else none) :=
  c4_ipv6_derivation_amended.1 ["2", "a"] (by decide)

/-- C3 (code bug): in the single-address path the documented skip outcomes
are not non-fatal.  With no resolvable forward zone `create_forward` logs
"Skipping" but then dereferences `self.forward_zone.name` and raises
`AttributeError`; with an empty FQDN it still synthesizes and applies a
forward record whose name is empty; `create_reverse` raises `NameError`
(its skip logs interpolate the undefined name `ip`) in both of those
cases; only its missing-reverse-zone branch is a true skip that emits no
record and does not fail. -/
theorem c3_single_sync_skips :
    createForward cfgPlain envOne ipNoZone = .error .attributeError
    ∧ createForward cfgTag envOne ipTagOnly =
        .ok (⟨"", .A, "10.72.0.7", 300, "example.com."⟩,
          [⟨.create, "srv1", "example.com.", ⟨"", .A, "10.72.0.7", 300, "example.com."⟩⟩])
    ∧ createReverse cfgPlain envOne ipNoZone = .error .nameError
    ∧ createReverse cfgTag envOne ipTagOnly = .error .nameError
    ∧ createReverse cfgPlain envOne ipHost = .ok none := by
  exact ⟨rfl, rfl, rfl, rfl, rfl⟩

theorem applyLoop_ne_noServers (env : Env) (k : ActKind) (r : DnsRecord) :
    ∀ ss : List String, (applyLoop env k r ss).2 ≠ some .noServers := by
  intro ss
  induction ss with
  | nil => simp [applyLoop]
  | cons s ss ih =>
    rw [applyLoop]
    cases h : env.zoneOn s r.zone_name
    · simp
    · simpa using ih

theorem applyLoop_missing (env : Env) (k : ActKind) (r : DnsRecord) :
    ∀ ss : List String, (∃ s ∈ ss, env.zoneOn s r.zone_name = none) →
      (applyLoop env k r ss).2 = some .serverZoneMissing := by
  intro ss
  induction ss with
  | nil =>
    rintro ⟨s, hs, -⟩
    exact absurd hs (List.not_mem_nil s)
  | cons t ts ih =>
    rintro ⟨s, hs, hnone⟩
    rw [applyLoop]
    cases h : env.zoneOn t r.zone_name
    · simp
    · have hst : s ≠ t := by
        rintro rfl
        rw [h] at hnone
        cases hnone
      have hs' : s ∈ ts := by
        rcases List.mem_cons.mp hs with h1 | h1
        · exact absurd h1 hst
        · exact h1
      simpa using ih ⟨s, hs', hnone⟩

theorem collectPdns_missing (env : Env) (zn : String) :
    ∀ (ss : List String) (acc : List DnsRecord), (∃ s ∈ ss, env.zoneOn s zn = none) →
      collectPdns env zn acc ss = .error .serverZoneMissing := by
  intro ss
  induction ss with
  | nil =>
    rintro acc ⟨s, hs, -⟩
    exact absurd hs (List.not_mem_nil s)
  | cons t ts ih =>
    rintro acc ⟨s, hs, hnone⟩
    rw [collectPdns]
    cases h : env.zoneOn t zn
    · rfl
    · have hst : s ≠ t := by
        rintro rfl
        rw [h] at hnone
        cases hnone
      have hs' : s ∈ ts := by
        rcases List.mem_cons.mp hs with h1 | h1
        · exact absurd h1 hst
        · exact h1
      exact ih _ ⟨s, hs', hnone⟩

/-- C5: `create_record` and `delete_record` fail with `NoServers` exactly
when the zone has no enabled servers, and then perform no API action; when
some server's API does not return the zone they fail with
`ServerZoneMissing`; and a full-zone sync run hitting either condition
terminates `Errored` (its single pass applies nothing further and nothing
is retried inside the run). -/
theorem c5_server_errors :
    (∀ env r, ((createRecord env r).2 = some .noServers ↔ env.serversFor r.zone_name = []))
    ∧ (∀ env r, ((deleteRecord env r).2 = some .noServers ↔ env.serversFor r.zone_name = []))
    ∧ (∀ env r, env.serversFor r.zone_name = [] →
        (createRecord env r).1 = [] ∧ (deleteRecord env r).1 = [])
    ∧ (∀ env r, (∃ s ∈ env.serversFor r.zone_name, env.zoneOn s r.zone_name = none) →
        (createRecord env r).2 = some .serverZoneMissing ∧
          (deleteRecord env r).2 = some .serverZoneMissing)
    ∧ (∀ cfg zone ips env job, zone.enabled = true → env.serversFor zone.name = [] →
        (runFullSync cfg zone ips env job).status = .errored ∧
          (runFullSync cfg zone ips env job).actions = [])
    ∧ (∀ cfg zone ips env job, zone.enabled = true →
        (∃ s ∈ env.serversFor zone.name, env.zoneOn s zone.name = none) →
        (runFullSync cfg zone ips env job).status = .errored) := by
  have hne_of_ex : ∀ (env : Env) (zn : String),
      (∃ s ∈ env.serversFor zn, env.zoneOn s zn = none) → env.serversFor zn ≠ [] := by
    rintro env zn ⟨s, hs, -⟩ he
    rw [he] at hs
    exact List.not_mem_nil s hs
  refine ⟨?_, ?_, ?_, ?_, ?_, ?_⟩
  · intro env r
    constructor
    · intro h
      by_contra hne
      rw [createRecord, if_neg hne] at h
      exact applyLoop_ne_noServers env .create r _ h
    · intro h
      rw [createRecord, if_pos h]
  · intro env r
    constructor
    · intro h
      by_contra hne
      rw [deleteRecord, if_neg hne] at h
      exact applyLoop_ne_noServers env .delete r _ h
    · intro h
      rw [deleteRecord, if_pos h]
  · intro env r h
    constructor
    · rw [createRecord, if_pos h]
    · rw [deleteRecord, if_pos h]
  · intro env r h
    constructor
    · rw [createRecord, if_neg (hne_of_ex env r.zone_name h)]
      exact applyLoop_missing env .create r _ h
    · rw [deleteRecord, if_neg (hne_of_ex env r.zone_name h)]
      exact applyLoop_missing env .delete r _ h
  · intro cfg zone ips env job hen hsrv
    rw [runFullSync, if_neg (by simp [hen])]
    rw [loadPdnsRecords, if_pos hsrv]
    exact ⟨rfl, rfl⟩
  · intro cfg zone ips env job hen hex
    rw [runFullSync, if_neg (by simp [hen])]
    rw [loadPdnsRecords, if_neg (hne_of_ex env zone.name hex),
      collectPdns_missing env zone.name _ _ hex]

/-- C5 witness: with no enabled servers the create fails `NoServers`, and
a run against a two-server environment whose second server does not
recognise the zone ends `Errored`. -/
theorem c5_server_errors_witness :
    (createRecord envNone recTtl300).2 = some .noServers
    ∧ (runFullSync cfgPlain zoneExample [] envHalf ⟨0, none⟩).status = .errored := by
  constructor
  · exact (c5_server_errors.1 envNone recTtl300).mpr rfl
  · exact c5_server_errors.2.2.2.2.2 cfgPlain zoneExample [] envHalf ⟨0, none⟩ rfl
      ⟨"s2", by decide, by decide⟩

/-- C6 counterexample: a disabled zone with a recurrence interval set —
the run is a no-op, but `run_full_sync` returns from inside the `try`
block before the rescheduling code, so no new job is enqueued. -/
theorem c6_reschedule_counterexample :
    (runFullSync cfgPlain zoneDisabled [] envOne ⟨100, some 30⟩).next = none
    ∧ (⟨100, some 30⟩ : JobInfo).interval = some 30 := by
  exact ⟨rfl, rfl⟩

/-- C6 amended: for an enabled zone, a full-zone sync run with an interval
set always re-enqueues itself — on success and on every error — at the
prior scheduled time plus the interval (not the completion time); the
disabled-zone no-op returns early and never re-enqueues. -/
theorem c6_reschedule_amended :
    (∀ cfg zone ips env job i, zone.enabled = true → job.interval = some i →
      (runFullSync cfg zone ips env job).next = some (job.scheduled + i))
    ∧ (∀ cfg zone ips env job, zone.enabled = false →
      (runFullSync cfg zone ips env job).next = none) := by
  constructor
  · intro cfg zone ips env job i hen hi
    rw [runFullSync, if_neg (by simp [hen])]
    simp [hi]
  · intro cfg zone ips env job hdis
    rw [runFullSync, if_pos hdis]

/-- C6 witness: an enabled-zone run with interval 30 scheduled at 100 is
re-enqueued at 130, even though this particular run errors
(`envNone` has no servers). -/
theorem c6_reschedule_amended_witness :
    (runFullSync cfgPlain zoneExample [] envNone ⟨100, some 30⟩).next = some (100 + 30) :=
  c6_reschedule_amended.1 cfgPlain zoneExample [] envNone ⟨100, some 30⟩ 30 rfl rfl

/-- C7 (code bug): the PTR data is not "forward FQDN plus custom suffix,
with default fallback" in both paths.  In the single-address path an empty
forward FQDN raises `NameError` before any record is built, so no fallback
happens there; the full-zone path does substitute the configured default
reverse target; and in both paths the FQDN placed into the data is
generated against the *reverse* zone, so it differs from the forward FQDN
whenever the two zones differ. -/
theorem c7_ptr_data_fallback :
    createReverse cfgTag envOne ipTagOnly = .error .nameError
    ∧ (loadNetboxRecords cfgRevOnly zoneRev [ipAnon] []).1 =
        [⟨"6", .PTR, "unknown.example.com.", 3600, "0.72.10.in-addr.arpa."⟩]
    ∧ (loadNetboxRecords cfgBoth zoneRev [ipHost] []).1 =
        [⟨"5", .PTR, "host1.0.72.10.in-addr.arpa..", 3600, "0.72.10.in-addr.arpa."⟩]
    ∧ (makeFqdn cfgBoth ipHost).2 = "host1.example.com."
    ∧ ("host1.0.72.10.in-addr.arpa.." : String) ≠ "host1.example.com." ++ "." := by
  exact ⟨rfl, rfl, rfl, rfl, by decide⟩

/-- C8 (code bug): the forward record's type and data follow the claim in
both paths, and the full-zone path takes the TTL fallback from the forward
zone; but the single-address path takes it from the *reverse* zone's
`default_ttl` (500 here) instead of the forward zone's (3600). -/
theorem c8_forward_record_ttl :
    createForward cfgRev500 envOne ipHost =
      .ok (⟨"host1", .A, "10.72.0.5", 500, "example.com."⟩,
        [⟨.create, "srv1", "example.com.", ⟨"host1", .A, "10.72.0.5", 500, "example.com."⟩⟩])
    ∧ (loadNetboxRecords cfgRev500 zoneExample [ipHost] []).1 =
        [⟨"host1", .A, "10.72.0.5", 3600, "example.com."⟩]
    ∧ zoneExample.default_ttl = 3600
    ∧ zoneRev500.default_ttl = 500
    ∧ familyType .v4 = .A
    ∧ familyType .v6 = .AAAA := by
  exact ⟨rfl, rfl, rfl, rfl, rfl, rfl⟩

/-- C9 counterexample: two consecutive full-zone syncs of the reverse zone
over one address whose stored DNS name initially lies under that zone.
The first run emits an A record (the forward zone resolves to the reverse
zone via the DNS name) and a PTR record, and writes the PTR target —
ending in two dots — back onto the address; on the second run that name no
longer suffix-matches any zone, the forward zone resolves to nothing, and
the diff against the first run's records deletes the A record: the second
run's diff is not empty although only the first run's own write-back
changed the inventory. -/
theorem c9_idempotence_counterexample :
    diffRecords idemRun2.1 idemRun1.1 ≠ ([], [])
    ∧ (diffRecords idemRun2.1 idemRun1.1).2 =
        [⟨"host1", .A, "10.72.0.5", 3600, "0.72.10.in-addr.arpa."⟩]
    ∧ idemRun1.2 = [setDnsName ipRevNamed "host1.0.72.10.in-addr.arpa.."] := by
  exact ⟨by decide, by decide, by decide⟩

/-- The set-level effect of applying a computed diff to the DNS state: the
records of `to_delete` are removed and those of `to_create` added. -/
def applyDiffTo (actual : List DnsRecord) (d : List DnsRecord × List DnsRecord) :
    List DnsRecord :=
  setDiff actual d.2 ++ d.1

/-- C9 amended: when the second run computes the same desired set as the
first (in particular whenever the write-back does not change how any
candidate address resolves its forward zone), the second diff against the
applied state is empty; unconditional idempotence fails because the PTR
write-back can change forward-zone resolution (see the counterexample). -/
theorem c9_idempotence_amended :
    ∀ desired actual : List DnsRecord,
      diffRecords desired (applyDiffTo actual (diffRecords desired actual)) = ([], []) := by
  intro desired actual
  simp only [diffRecords, applyDiffTo, setDiff, Prod.mk.injEq]
  constructor
  · rw [List.filter_eq_nil_iff]
    intro r hr
    simp only [List.mem_append, List.mem_filter, Bool.not_eq_true', decide_eq_false_iff_not,
      decide_eq_true_eq, not_and, not_not, not_or]
    by_cases hact : r ∈ actual <;> tauto
  · rw [List.filter_eq_nil_iff]
    intro r hr
    simp only [List.mem_append, List.mem_filter, Bool.not_eq_true', decide_eq_false_iff_not,
      decide_eq_true_eq, not_and, not_not] at hr ⊢
    tauto

theorem pyReplaceGo_nil (pat : List Char) : ∀ fuel, pyReplaceGo pat fuel [] = [] := by
  intro fuel
  cases fuel <;> rfl

theorem pyReplaceGo_clear (pat : List Char) :
    ∀ (pre : List Char) (fuel : Nat), (pre ++ pat).length ≤ fuel → pat ≠ [] →
      (∀ i, i < pre.length → pat.isPrefixOf ((pre ++ pat).drop i) = false) →
      pyReplaceGo pat fuel (pre ++ pat) = pre := by
  intro pre
  induction pre with
  | nil =>
    intro fuel hf hpat _
    cases pat with
    | nil => exact absurd rfl hpat
    | cons p ps =>
      simp only [List.nil_append, List.length_cons] at hf ⊢
      cases fuel with
      | zero => omega
      | succ f =>
        have hpref : (p :: ps).isPrefixOf (p :: ps) = true :=
          List.isPrefixOf_iff_prefix.mpr (List.prefix_refl _)
        rw [pyReplaceGo, if_pos ⟨hpat, hpref⟩, List.drop_length, pyReplaceGo_nil]
  | cons c pre ih =>
    intro fuel hf hpat hocc
    cases fuel with
    | zero =>
      simp only [List.cons_append, List.length_cons] at hf
      omega
    | succ f =>
      rw [List.cons_append, pyReplaceGo, if_neg]
      · have hf' : (pre ++ pat).length ≤ f := by
          simp only [List.cons_append, List.length_cons] at hf
          simp only [List.length_append]
          simp only [List.length_append] at hf
          omega
        have hocc' : ∀ i, i < pre.length → pat.isPrefixOf ((pre ++ pat).drop i) = false := by
          intro i hi
          have := hocc (i + 1) (by simp only [List.length_cons]; omega)
          rwa [List.cons_append, List.drop_succ_cons] at this
        rw [ih f hf' hpat hocc']
      · rintro ⟨-, hpref⟩
        have h0 := hocc 0 (by simp only [List.length_cons]; omega)
        rw [List.drop_zero, List.cons_append] at h0
        rw [h0] at hpref
        cases hpref

/-- C10: the relative record name removes every occurrence of the zone
name from the FQDN and strips trailing dots — when the zone name occurs
only as the trailing suffix this equals suffix removal, but an interior
occurrence is removed as well, so the result differs from suffix-only
stripping (`example.com.example.com.` relative to zone `example.com.`
becomes the empty name, where suffix-only stripping would give
`example.com`). -/
theorem c10_relative_name :
    (∀ (pre pat : List Char), pat ≠ [] →
      (∀ i, i < pre.length → pat.isPrefixOf ((pre ++ pat).drop i) = false) →
      pyReplace pat (pre ++ pat) = pre)
    ∧ rstripDotsS (pyReplaceS "example.com.example.com." "example.com.") = ""
    ∧ rstripDotsS "example.com." = "example.com"
    ∧ ("" : String) ≠ "example.com" := by
  refine ⟨?_, rfl, rfl, by decide⟩
  intro pre pat hpat hocc
  exact pyReplaceGo_clear pat pre (pre ++ pat).length le_rfl hpat hocc

/-- C10 witness: for FQDN `host1.example.com.` and zone `example.com.`
(the zone name occurring only as the suffix) the replacement leaves
exactly the prefix `host1.`. -/
theorem c10_relative_name_witness :
    pyReplace ("example.com." : String).data
        (("host1." : String).data ++ ("example.com." : String).data) =
      ("host1." : String).data :=
  c10_relative_name.1 ("host1." : String).data ("example.com." : String).data
    (by decide) (by decide)

end PdnsSync
